import Mathlib

/-!
Shallow embedding of the booking/cancellation/substitution engine of the
abo-ameer-lineups application (src/src/App.tsx), together with proofs of the
behavioural properties stated in its specification.

The embedding translates the React component's state (`teamSlots`, `bench`)
and its mutation handlers (`handleOpenBooking`, `handleConfirmBooking`,
`handleCancelBooking`, `handleOpenBenchBooking`, `handleConfirmBenchBooking`,
`handleCancelBenchPlayer`, `handleResetLineup`, `updateBookingDetails`) into
pure functions on an explicit application-state record.  Remote persistence
calls are outside the model: the handlers' local (optimistic) state updates
are what is embedded, as those are what the specification's properties are
about.  The browser alerts that block an operation are modelled as an
`Option String` result (`none` = the operation went through locally).
-/

namespace AboAmeer

/-- The nine fixed position keys (`BookingPositionKey` in the source). -/
inductive PosKey where
  | GK | LB | CB1 | CB2 | RB | CM1 | CM2 | CAM | ST
deriving DecidableEq, Repr

/-- Line classification of a position (`LineType` in the source). -/
inductive LineType where
  | GK | DEF | MID | ATT
deriving DecidableEq, Repr

/-- The two teams (`TeamId` in the source). -/
inductive TeamId where
  | red | green
deriving DecidableEq, Repr

/-- Payment status of a booked position. -/
inductive PaymentStatus where
  | unpaid | paid
deriving DecidableEq, Repr

/-- A position slot (`BookingSlot` in the source).  Optional string fields of
the source that default to a fixed value are carried with that default;
`playerName?: string` is `Option String`, `sessionId?: string` is a `String`
with `""` denoting "no owning device" (exactly how the source uses it). -/
structure BookingSlot where
  key : PosKey
  label : String
  line : LineType
  booked : Bool
  playerName : Option String
  rating : Option Nat
  tags : List String
  note : String
  paymentStatus : PaymentStatus
  sessionId : String
deriving DecidableEq, Repr

/-- The two teams' slot arrays (`TeamSlots = Record<TeamId, BookingSlot[]>`). -/
structure TeamSlots where
  red : List BookingSlot
  green : List BookingSlot
deriving DecidableEq, Repr

/-- Indexing a `TeamSlots` record by team, as `teamSlots[team]` in the source. -/
def TeamSlots.get (ts : TeamSlots) : TeamId → List BookingSlot
  | .red => ts.red
  | .green => ts.green

/-- Functional update of one team's slot list, as `updated[team] = ...`. -/
def TeamSlots.set (ts : TeamSlots) : TeamId → List BookingSlot → TeamSlots
  | .red, l => { ts with red := l }
  | .green, l => { ts with green := l }

/-- A bench (substitute-queue) entry (`BenchPlayer` in the source). -/
structure BenchPlayer where
  id : Nat
  playerName : String
  sessionId : Option String
deriving DecidableEq, Repr

/-- The local application state relevant to the booking engine: the two
teams' position arrays and the shared ordered bench queue. -/
structure AppState where
  teamSlots : TeamSlots
  bench : List BenchPlayer
deriving DecidableEq, Repr

/-- Result of a handler: the state after the local (optimistic) update, plus
the blocking alert message when the operation was refused (in which case the
state is the input state). -/
structure OpOut where
  state : AppState
  blocked : Option String
deriving Repr

/-- The fixed part of a slot definition (an element of `baseSlots`). -/
structure BaseSlot where
  key : PosKey
  label : String
  line : LineType
deriving DecidableEq, Repr

/-- The nine static slot definitions (`baseSlots` in the source). -/
def baseSlots : List BaseSlot :=
  [ ⟨.GK, "حارس مرمى", .GK⟩,
    ⟨.LB, "ظهير أيسر", .DEF⟩,
    ⟨.CB1, "قلب دفاع 1", .DEF⟩,
    ⟨.CB2, "قلب دفاع 2", .DEF⟩,
    ⟨.RB, "ظهير أيمن", .DEF⟩,
    ⟨.CM1, "وسط 1", .MID⟩,
    ⟨.CM2, "وسط 2", .MID⟩,
    ⟨.CAM, "صانع لعب (10)", .MID⟩,
    ⟨.ST, "مهاجم صريح", .ATT⟩ ]

/-- The list of the nine position keys in definition order. -/
def baseKeys : List PosKey := [.GK, .LB, .CB1, .CB2, .RB, .CM1, .CM2, .CAM, .ST]

/-- An empty slot built from a static definition (the per-slot body of
`makeInitialTeamSlots`). -/
def emptySlot (slot : BaseSlot) : BookingSlot :=
  { key := slot.key, label := slot.label, line := slot.line,
    booked := false, playerName := none, rating := none, tags := [],
    note := "", paymentStatus := .unpaid, sessionId := "" }

/-- Translation of `makeInitialTeamSlots` from the source: both teams start with the nine
slots empty. -/
def makeInitialTeamSlots : TeamSlots :=
  { red := baseSlots.map emptySlot, green := baseSlots.map emptySlot }

/-- The initial application state: empty teams and an empty bench queue. -/
def initialState : AppState := { teamSlots := makeInitialTeamSlots, bench := [] }

/-- Translation of `deviceBooking` from the source: the first booked slot (scanning red then
green, in slot order) whose owning device is the acting device; `none` when
the device identifier is empty. -/
def deviceBooking (s : AppState) (sid : String) : Option (TeamId × BookingSlot) :=
  if sid = "" then none
  else
    match s.teamSlots.red.find? (fun sl => sl.booked && sl.sessionId == sid) with
    | some sl => some (.red, sl)
    | none =>
      match s.teamSlots.green.find? (fun sl => sl.booked && sl.sessionId == sid) with
      | some sl => some (.green, sl)
      | none => none

/-- Translation of `deviceBenchEntry` from the source: the acting device's bench entry,
if any; `none` when the device identifier is empty. -/
def deviceBenchEntry (s : AppState) (sid : String) : Option BenchPlayer :=
  if sid = "" then none
  else s.bench.find? (fun b => b.sessionId == some sid)

/-- Translation of `canCurrentDeviceCancel` from the source: whether the cancel button is
shown for a slot on the booking page. -/
def canCurrentDeviceCancel (sid : String) (slot : BookingSlot) : Bool :=
  if slot.booked = false then false
  else if slot.sessionId = "" || sid = "" then true
  else slot.sessionId == sid

/-- The in-place update pattern used by every team mutation in the source:
`teamSlots[team].map(s => s.key === key ? f(s) : s)`. -/
def updAt (key : PosKey) (f : BookingSlot → BookingSlot) (l : List BookingSlot) :
    List BookingSlot :=
  l.map fun sl => if sl.key = key then f sl else sl

/-- Model of JavaScript's `String.prototype.trim` as used by the source
(`tempName.trim()` / `benchTempName.trim()`): strip leading and trailing
whitespace.  Written by structural recursion so that it evaluates inside the
kernel. -/
def jsTrim (s : String) : String :=
  ⟨((s.data.dropWhile Char.isWhitespace).reverse.dropWhile Char.isWhitespace).reverse⟩

/-- Alert shown by `handleOpenBooking` when the device already holds a
different booking. -/
def doubleBookingAlert : String :=
  "لا يمكنك حجز أكثر من مركز في نفس الوقت (ولا في فريقين مختلفين).\nقم أولاً بإلغاء حجزك الحالي، ثم احجز مركزاً جديداً."

/-- Alert shown when a device on the bench tries to claim a position. -/
def benchConflictAlert : String :=
  "لا يمكنك حجز مركز أساسي وأنت مسجل في قائمة الاحتياط.\nقم أولاً بإلغاء مقعد الاحتياط الخاص بك."

/-- Alert shown by `handleCancelBooking` on an unauthorized cancellation. -/
def cancelOtherAlert : String := "❌ لا يمكنك إلغاء حجز لاعب آخر."

/-- Alert shown by `handleOpenBenchBooking` when the device already holds a
position booking. -/
def benchHasBookingAlert : String :=
  "لا يمكنك حجز مقعد احتياط وأنت محجوز في مركز داخل الملعب.\nقم أولاً بإلغاء حجزك الأساسي."

/-- Alert shown by `handleOpenBenchBooking` when the device already holds a
bench entry. -/
def benchHasBenchAlert : String := "لديك بالفعل مقعد احتياط محجوز."

/-- Alert shown by `handleCancelBenchPlayer` on an unauthorized removal. -/
def cancelOtherBenchAlert : String := "❌ لا يمكنك إلغاء احتياط لاعب آخر."

/-- Alert shown by `handleResetLineup` to a non-privileged caller. -/
def adminOnlyAlert : String := "هذا الزر متاح للمسؤول فقط."

/-- Translation of `handleOpenBooking` from the source: the gate run when a device asks to
claim a position.  Returns the blocking alert, or `none` when the booking
modal opens (no state mutation either way). -/
def handleOpenBooking (s : AppState) (sid : String) (selectedTeam : TeamId)
    (key : PosKey) : Option String :=
  match deviceBooking s sid with
  | some tb =>
    if tb.1 = selectedTeam ∧ tb.2.key = key then
      if (deviceBenchEntry s sid).isSome then some benchConflictAlert else none
    else some doubleBookingAlert
  | none =>
    if (deviceBenchEntry s sid).isSome then some benchConflictAlert else none

/-- Translation of `handleConfirmBooking` from the source: the local state update performed
when the user confirms the name in the booking modal.  An empty (trimmed)
name silently does nothing; a bench conflict is re-checked and blocks. -/
def handleConfirmBooking (s : AppState) (sid : String) (selectedTeam : TeamId)
    (selectedKey : PosKey) (tempName : String) : OpOut :=
  if jsTrim tempName = "" then ⟨s, none⟩
  else if (deviceBenchEntry s sid).isSome then ⟨s, some benchConflictAlert⟩
  else
    let updatedTeam :=
      updAt selectedKey
        (fun sl => { sl with booked := true, playerName := some (jsTrim tempName),
                             sessionId := sid })
        (s.teamSlots.get selectedTeam)
    ⟨{ s with teamSlots := s.teamSlots.set selectedTeam updatedTeam }, none⟩

/-- The state produced by a successful booking confirmation: the slot with the
given key of the given team is marked booked with the given occupant name and
owning device.  (`handleConfirmBooking`'s success branch produces exactly
this state.) -/
def bookSlotIn (s : AppState) (team : TeamId) (key : PosKey) (pn : Option String)
    (sid : String) : AppState :=
  let updatedTeam :=
    updAt key (fun sl => { sl with booked := true, playerName := pn, sessionId := sid })
      (s.teamSlots.get team)
  { s with teamSlots := s.teamSlots.set team updatedTeam }

/-- The claim operation as a user performs it: the open-gate followed by the
confirmation (the UI runs `handleConfirmBooking` only after
`handleOpenBooking` has opened the modal). -/
def claimPosition (s : AppState) (sid : String) (team : TeamId) (key : PosKey)
    (name : String) : OpOut :=
  match handleOpenBooking s sid team key with
  | some m => ⟨s, some m⟩
  | none => handleConfirmBooking s sid team key name

/-- Clearing of all mutable slot fields, as written inline in
`handleCancelBooking` (and coinciding with the initial slot fields). -/
def clearSlotFields (sl : BookingSlot) : BookingSlot :=
  { sl with booked := false, playerName := none, rating := none, tags := [],
            note := "", paymentStatus := .unpaid, sessionId := "" }

/-- The re-booking of a just-cleared slot from the head bench entry, as
written inline in `handleCancelBooking`. -/
def promoteFields (bf : BenchPlayer) (sl : BookingSlot) : BookingSlot :=
  { sl with booked := true, playerName := some bf.playerName,
            sessionId := bf.sessionId.getD "" }

/-- The state mutation of a permitted `handleCancelBooking` call: clear the
slot; when the bench queue is non-empty additionally move the head entry's
name and device into the slot and drop that entry from the queue. -/
def cancelApply (s : AppState) (team : TeamId) (key : PosKey) : AppState :=
  let benchFirst := s.bench.head?
  let updatedTeam :=
    match benchFirst with
    | some bf =>
        updAt key (promoteFields bf) (updAt key clearSlotFields (s.teamSlots.get team))
    | none => updAt key clearSlotFields (s.teamSlots.get team)
  let newBench :=
    match benchFirst with
    | some bf => s.bench.filter (fun b => ¬ b.id = bf.id)
    | none => s.bench
  { teamSlots := s.teamSlots.set team updatedTeam, bench := newBench }

/-- Translation of `handleCancelBooking` from the source: permission check (ownership unless
forced, empty owner or empty device identifier are always allowed), then the
clear-and-maybe-promote mutation. -/
def handleCancelBooking (s : AppState) (sid : String) (team : TeamId)
    (key : PosKey) (force : Bool) : OpOut :=
  match (s.teamSlots.get team).find? (fun sl => sl.key = key) with
  | none => ⟨s, none⟩
  | some slot =>
    if force = false ∧ ¬ slot.sessionId = "" ∧ ¬ sid = "" ∧ ¬ slot.sessionId = sid then
      ⟨s, some cancelOtherAlert⟩
    else ⟨cancelApply s team key, none⟩

/-- Translation of `handleOpenBenchBooking` from the source: the gate for joining the bench
queue (no state mutation). -/
def handleOpenBenchBooking (s : AppState) (sid : String) : Option String :=
  if (deviceBooking s sid).isSome then some benchHasBookingAlert
  else if (deviceBenchEntry s sid).isSome then some benchHasBenchAlert
  else none

/-- Translation of `handleConfirmBenchBooking` from the source: append a new bench entry with
a locally generated temporary id (the `Date.now()` value is a parameter here);
an empty (trimmed) name silently does nothing. -/
def handleConfirmBenchBooking (s : AppState) (sid : String) (tempId : Nat)
    (benchTempName : String) : AppState :=
  if jsTrim benchTempName = "" then s
  else { s with bench := s.bench ++ [⟨tempId, jsTrim benchTempName, some sid⟩] }

/-- The join-bench operation as a user performs it: gate, then confirmation. -/
def joinBench (s : AppState) (sid : String) (tempId : Nat) (name : String) : OpOut :=
  match handleOpenBenchBooking s sid with
  | some m => ⟨s, some m⟩
  | none => ⟨handleConfirmBenchBooking s sid tempId name, none⟩

/-- Translation of `handleCancelBenchPlayer` from the source: remove a bench entry by id,
subject to the same ownership rule as position cancellation. -/
def handleCancelBenchPlayer (s : AppState) (sid : String) (benchId : Nat)
    (force : Bool) : OpOut :=
  match s.bench.find? (fun b => b.id = benchId) with
  | none => ⟨s, none⟩
  | some player =>
    if force = false ∧ (∃ x, player.sessionId = some x ∧ ¬ x = "") ∧ ¬ sid = ""
        ∧ ¬ player.sessionId = some sid then
      ⟨s, some cancelOtherBenchAlert⟩
    else ⟨{ s with bench := s.bench.filter (fun b => ¬ b.id = benchId) }, none⟩

/-- Translation of `handleResetLineup` from the source: privileged-only and gated by a
confirmation dialog; on success both teams return to their initial empty
definitions and the bench queue is emptied. -/
def handleResetLineup (s : AppState) (isAdminLoggedIn : Bool)
    (confirmed : Bool) : OpOut :=
  if isAdminLoggedIn = false then ⟨s, some adminOnlyAlert⟩
  else if confirmed = false then ⟨s, none⟩
  else ⟨{ teamSlots := makeInitialTeamSlots, bench := [] }, none⟩

/-- The partial-update record accepted by `updateBookingDetails` (each field
`some v` when present in the JS `updates` object). -/
structure BookingUpdates where
  rating : Option (Option Nat)
  tags : Option (List String)
  paymentStatus : Option PaymentStatus
  note : Option String
deriving DecidableEq, Repr

/-- Spreading a partial-update record over a slot (`{ ...slot, ...updates }`). -/
def applyUpdates (sl : BookingSlot) (u : BookingUpdates) : BookingSlot :=
  { sl with rating := u.rating.getD sl.rating,
            tags := u.tags.getD sl.tags,
            paymentStatus := u.paymentStatus.getD sl.paymentStatus,
            note := u.note.getD sl.note }

/-- Translation of `updateBookingDetails` from the source: apply a partial metadata update to
one position of one team (the local, optimistic part of the handler). -/
def updateBookingDetails (s : AppState) (team : TeamId) (key : PosKey)
    (u : BookingUpdates) : AppState :=
  let updatedTeam := updAt key (fun sl => applyUpdates sl u) (s.teamSlots.get team)
  { s with teamSlots := s.teamSlots.set team updatedTeam }

/-- All eighteen slots of a state, red team first (the scan order of
`deviceBooking`). -/
def slotsOf (s : AppState) : List BookingSlot :=
  s.teamSlots.red ++ s.teamSlots.green

/-- The predicate "slot is booked and owned by device `sid`". -/
def ownsP (sid : String) (sl : BookingSlot) : Bool :=
  sl.booked && sl.sessionId == sid

/-- How many booked positions across both teams device `sid` owns. -/
def ownedCount (s : AppState) (sid : String) : Nat :=
  (slotsOf s).countP (ownsP sid)

/-- One user-level transition of the booking engine: a claim, a position
cancellation, a bench join, a bench removal, or a reset.  A claim or bench
join acts on behalf of an established device session, whose locally generated
identifier is never the empty string. -/
inductive Step : AppState → AppState → Prop where
  | claim (s : AppState) (sid : String) (team : TeamId) (key : PosKey)
      (name : String) (hsid : ¬ sid = "") :
      Step s (claimPosition s sid team key name).state
  | cancel (s : AppState) (sid : String) (team : TeamId) (key : PosKey)
      (force : Bool) :
      Step s (handleCancelBooking s sid team key force).state
  | benchJoin (s : AppState) (sid : String) (tempId : Nat) (name : String)
      (hsid : ¬ sid = "") :
      Step s (joinBench s sid tempId name).state
  | benchLeave (s : AppState) (sid : String) (benchId : Nat) (force : Bool) :
      Step s (handleCancelBenchPlayer s sid benchId force).state
  | reset (s : AppState) (admin confirmed : Bool) :
      Step s (handleResetLineup s admin confirmed).state

/-- The states reachable from the initial empty state by the booking
operations. -/
inductive Reachable : AppState → Prop where
  | init : Reachable initialState
  | step {s s' : AppState} : Reachable s → Step s s' → Reachable s'

/-- Concrete test state: device `X` has claimed red `CB1` as `Badr`. -/
def wsClaim : AppState := (claimPosition initialState "X" .red .CB1 "Badr").state

/-- Concrete test state: additionally, device `Y` joined the bench as
`Alice` (entry id 7). -/
def wsBench : AppState := (joinBench wsClaim "Y" 7 "Alice").state

/-- The concrete red `CB1` slot of `wsClaim` and `wsBench`. -/
def wsCB1Slot : BookingSlot :=
  ⟨.CB1, "قلب دفاع 1", .DEF, true, some "Badr", none, [], "", .unpaid, "X"⟩

/-- The concrete red `GK` slot of the initial state (still empty in
`wsClaim` and `wsBench`). -/
def wsGKSlot : BookingSlot :=
  ⟨.GK, "حارس مرمى", .GK, false, none, none, [], "", .unpaid, ""⟩

/-- The concrete bench entry of `wsBench`. -/
def wsAlice : BenchPlayer := ⟨7, "Alice", some "Y"⟩

/-- Concrete test state: `wsBench` after the administrator set rating, tags,
payment status and a note on red `CB1`. -/
def wsMeta : AppState :=
  updateBookingDetails wsBench .red .CB1 ⟨some (some 9), some ["fast"], some .paid, some "note"⟩

/-- The concrete red `CB1` slot of `wsMeta`. -/
def wsCB1SlotMeta : BookingSlot :=
  ⟨.CB1, "قلب دفاع 1", .DEF, true, some "Badr", some 9, ["fast"], "note", .paid, "X"⟩

/-! ### Generic lemmas about the slot-update pattern -/

theorem ownsP_eq_true {sid : String} {sl : BookingSlot} :
    ownsP sid sl = true ↔ sl.booked = true ∧ sl.sessionId = sid := by
  simp [ownsP]

theorem TeamSlots.get_set_self (ts : TeamSlots) (team : TeamId) (l : List BookingSlot) :
    (ts.set team l).get team = l := by
  cases team <;> rfl

theorem TeamSlots.get_set_other (ts : TeamSlots) (team t : TeamId) (l : List BookingSlot)
    (h : ¬ t = team) : (ts.set team l).get t = ts.get t := by
  cases team <;> cases t <;> first | rfl | exact absurd rfl h

theorem updAt_map_key (key : PosKey) (f : BookingSlot → BookingSlot)
    (hf : ∀ sl, (f sl).key = sl.key) (l : List BookingSlot) :
    (updAt key f l).map BookingSlot.key = l.map BookingSlot.key := by
  unfold updAt
  rw [List.map_map]
  apply List.map_congr_left
  intro sl _
  by_cases h : sl.key = key <;> simp [Function.comp, h, hf]

theorem find?_updAt (key : PosKey) (f : BookingSlot → BookingSlot)
    (hf : ∀ sl, (f sl).key = sl.key) (l : List BookingSlot) :
    (updAt key f l).find? (fun sl => sl.key = key) =
      (l.find? (fun sl => sl.key = key)).map f := by
  induction l with
  | nil => rfl
  | cons a t ih =>
    show ((if a.key = key then f a else a) :: updAt key f t).find? _ = _
    by_cases h : a.key = key
    · rw [if_pos h, List.find?_cons_of_pos _ (by simp [hf, h]),
        List.find?_cons_of_pos _ (by simp [h])]
      rfl
    · rw [if_neg h, List.find?_cons_of_neg _ (by simp [h]),
        List.find?_cons_of_neg _ (by simp [h])]
      exact ih

theorem keys_split {l : List BookingSlot} (hnd : (l.map BookingSlot.key).Nodup)
    {k : PosKey} (hk : k ∈ l.map BookingSlot.key) :
    ∃ l₁ sl₀ l₂, l = l₁ ++ sl₀ :: l₂ ∧ sl₀.key = k ∧
      (∀ sl ∈ l₁, ¬ sl.key = k) ∧ (∀ sl ∈ l₂, ¬ sl.key = k) := by
  induction l with
  | nil => simp at hk
  | cons a t ih =>
    rw [List.map_cons, List.nodup_cons] at hnd
    by_cases h : a.key = k
    · refine ⟨[], a, t, rfl, h, by simp, ?_⟩
      intro sl hsl hcon
      exact hnd.1 (h ▸ hcon ▸ List.mem_map_of_mem BookingSlot.key hsl)
    · have hk' : k ∈ t.map BookingSlot.key := by
        rcases List.mem_cons.mp hk with h' | h'
        · exact absurd h'.symm h
        · exact h'
      obtain ⟨l₁, sl₀, l₂, heq, hkey, h₁, h₂⟩ := ih hnd.2 hk'
      refine ⟨a :: l₁, sl₀, l₂, by rw [heq]; rfl, hkey, ?_, h₂⟩
      intro sl hsl
      rcases List.mem_cons.mp hsl with rfl | hsl'
      · exact h
      · exact h₁ sl hsl'

theorem updAt_split (k : PosKey) (f : BookingSlot → BookingSlot)
    (l₁ : List BookingSlot) (sl₀ : BookingSlot) (l₂ : List BookingSlot)
    (h₀ : sl₀.key = k) (h₁ : ∀ sl ∈ l₁, ¬ sl.key = k) (h₂ : ∀ sl ∈ l₂, ¬ sl.key = k) :
    updAt k f (l₁ ++ sl₀ :: l₂) = l₁ ++ f sl₀ :: l₂ := by
  unfold updAt
  rw [List.map_append, List.map_cons, if_pos h₀]
  have e₁ : l₁.map (fun sl => if sl.key = k then f sl else sl) = l₁ := by
    rw [List.map_congr_left fun sl hsl => if_neg (h₁ sl hsl)]
    simp
  have e₂ : l₂.map (fun sl => if sl.key = k then f sl else sl) = l₂ := by
    rw [List.map_congr_left fun sl hsl => if_neg (h₂ sl hsl)]
    simp
  rw [e₁, e₂]

theorem eq_of_countP_le_one {α : Type} {p : α → Bool} {l : List α}
    (h : l.countP p ≤ 1) {a b : α} (ha : a ∈ l) (hb : b ∈ l)
    (hpa : p a = true) (hpb : p b = true) : a = b := by
  by_contra hne
  obtain ⟨l₁, l₂, rfl⟩ := List.append_of_mem ha
  have hb' : b ∈ l₁ ++ l₂ := by
    rcases List.mem_append.mp hb with h' | h'
    · exact List.mem_append.mpr (.inl h')
    · rcases List.mem_cons.mp h' with rfl | h''
      · exact absurd rfl hne
      · exact List.mem_append.mpr (.inr h'')
  have hpos : 0 < (l₁ ++ l₂).countP p := List.countP_pos_iff.mpr ⟨b, hb', hpb⟩
  simp only [List.countP_append, List.countP_cons, hpa, if_pos] at h hpos
  omega

/-! ### Characterizations of the device lookups -/

theorem deviceBooking_none_forall {s : AppState} {sid : String} (hsid : ¬ sid = "")
    (h : deviceBooking s sid = none) :
    ∀ sl ∈ slotsOf s, sl.booked = true → ¬ sl.sessionId = sid := by
  unfold deviceBooking at h
  rw [if_neg hsid] at h
  intro sl hsl hbk
  rcases List.mem_append.mp hsl with hm | hm
  · cases hr : s.teamSlots.red.find? (fun sl => sl.booked && sl.sessionId == sid) with
    | some x => rw [hr] at h; exact absurd h (by simp)
    | none =>
      have := List.find?_eq_none.mp hr sl hm
      simp [hbk] at this
      exact this
  · cases hr : s.teamSlots.red.find? (fun sl => sl.booked && sl.sessionId == sid) with
    | some x => rw [hr] at h; exact absurd h (by simp)
    | none =>
      rw [hr] at h
      cases hg : s.teamSlots.green.find? (fun sl => sl.booked && sl.sessionId == sid) with
      | some x => rw [hg] at h; exact absurd h (by simp)
      | none =>
        have := List.find?_eq_none.mp hg sl hm
        simp [hbk] at this
        exact this

theorem deviceBooking_none_of_forall {s : AppState} {sid : String}
    (h : ∀ sl ∈ slotsOf s, sl.booked = true → ¬ sl.sessionId = sid) :
    deviceBooking s sid = none := by
  unfold deviceBooking
  by_cases hsid : sid = ""
  · rw [if_pos hsid]
  · rw [if_neg hsid]
    have hr : s.teamSlots.red.find? (fun sl => sl.booked && sl.sessionId == sid) = none := by
      rw [List.find?_eq_none]
      intro sl hm
      have := h sl (List.mem_append.mpr (.inl hm))
      simp only [Bool.and_eq_true, beq_iff_eq, not_and]
      intro hbk
      exact this hbk
    have hg : s.teamSlots.green.find? (fun sl => sl.booked && sl.sessionId == sid) = none := by
      rw [List.find?_eq_none]
      intro sl hm
      have := h sl (List.mem_append.mpr (.inr hm))
      simp only [Bool.and_eq_true, beq_iff_eq, not_and]
      intro hbk
      exact this hbk
    rw [hr, hg]

theorem deviceBooking_some_spec {s : AppState} {sid : String} {t : TeamId}
    {sl : BookingSlot} (h : deviceBooking s sid = some (t, sl)) :
    sl ∈ s.teamSlots.get t ∧ sl.booked = true ∧ sl.sessionId = sid ∧ ¬ sid = "" := by
  unfold deviceBooking at h
  by_cases hsid : sid = ""
  · rw [if_pos hsid] at h; exact absurd h (by simp)
  · rw [if_neg hsid] at h
    cases hr : s.teamSlots.red.find? (fun sl => sl.booked && sl.sessionId == sid) with
    | some x =>
      rw [hr] at h
      have hx : x = sl ∧ TeamId.red = t := by
        have := Option.some.inj h
        exact ⟨congrArg Prod.snd this, congrArg Prod.fst this⟩
      obtain ⟨rfl, rfl⟩ := hx
      have hp := List.find?_some hr
      simp only [Bool.and_eq_true, beq_iff_eq] at hp
      exact ⟨List.mem_of_find?_eq_some hr, hp.1, hp.2, hsid⟩
    | none =>
      rw [hr] at h
      cases hg : s.teamSlots.green.find? (fun sl => sl.booked && sl.sessionId == sid) with
      | some x =>
        rw [hg] at h
        have hx : x = sl ∧ TeamId.green = t := by
          have := Option.some.inj h
          exact ⟨congrArg Prod.snd this, congrArg Prod.fst this⟩
        obtain ⟨rfl, rfl⟩ := hx
        have hp := List.find?_some hg
        simp only [Bool.and_eq_true, beq_iff_eq] at hp
        exact ⟨List.mem_of_find?_eq_some hg, hp.1, hp.2, hsid⟩
      | none => rw [hg] at h; exact absurd h (by simp)

theorem deviceBenchEntry_none_iff {s : AppState} {sid : String} (hsid : ¬ sid = "") :
    deviceBenchEntry s sid = none ↔ ∀ b ∈ s.bench, ¬ b.sessionId = some sid := by
  unfold deviceBenchEntry
  rw [if_neg hsid, List.find?_eq_none]
  simp

theorem deviceBenchEntry_some_spec {s : AppState} {sid : String} {b : BenchPlayer}
    (h : deviceBenchEntry s sid = some b) :
    b ∈ s.bench ∧ b.sessionId = some sid := by
  unfold deviceBenchEntry at h
  by_cases hsid : sid = ""
  · rw [if_pos hsid] at h; exact absurd h (by simp)
  · rw [if_neg hsid] at h
    have hp := List.find?_some h
    simp only [beq_iff_eq] at hp
    exact ⟨List.mem_of_find?_eq_some h, hp⟩

/-! ### Anatomy of the cancel operation -/

theorem cancelApply_empty_bench {s : AppState} (team : TeamId) (key : PosKey)
    (hb : s.bench = []) :
    cancelApply s team key =
      { teamSlots := s.teamSlots.set team
          (updAt key clearSlotFields (s.teamSlots.get team)),
        bench := s.bench } := by
  unfold cancelApply
  rw [hb]
  rfl

theorem cancelApply_cons_bench {s : AppState} (team : TeamId) (key : PosKey)
    {bf : BenchPlayer} {rest : List BenchPlayer} (hb : s.bench = bf :: rest) :
    cancelApply s team key =
      { teamSlots := s.teamSlots.set team
          (updAt key (promoteFields bf) (updAt key clearSlotFields (s.teamSlots.get team))),
        bench := (bf :: rest).filter (fun b => ¬ b.id = bf.id) } := by
  unfold cancelApply
  rw [hb]
  rfl

theorem handleCancelBooking_not_blocked {s : AppState} {sid : String} {team : TeamId}
    {key : PosKey} {force : Bool} {slot : BookingSlot}
    (hfind : (s.teamSlots.get team).find? (fun sl => sl.key = key) = some slot)
    (hok : force = true ∨ slot.sessionId = "" ∨ sid = "" ∨ slot.sessionId = sid) :
    handleCancelBooking s sid team key force = ⟨cancelApply s team key, none⟩ := by
  unfold handleCancelBooking
  rw [hfind]
  refine if_neg ?_
  rintro ⟨h1, h2, h3, h4⟩
  rcases hok with h | h | h | h
  · rw [h] at h1; exact absurd h1 (by simp)
  · exact h2 h
  · exact h3 h
  · exact h4 h

theorem handleCancelBooking_blocked {s : AppState} {sid : String} {team : TeamId}
    {key : PosKey} {force : Bool} {slot : BookingSlot}
    (hfind : (s.teamSlots.get team).find? (fun sl => sl.key = key) = some slot)
    (hblk : force = false ∧ ¬ slot.sessionId = "" ∧ ¬ sid = "" ∧ ¬ slot.sessionId = sid) :
    handleCancelBooking s sid team key force = ⟨s, some cancelOtherAlert⟩ := by
  unfold handleCancelBooking
  rw [hfind]
  exact if_pos hblk

/-- A bench queue whose head id does not reoccur loses exactly its head in the
filter performed by `handleCancelBooking`. -/
theorem filter_head_id {bf : BenchPlayer} {rest : List BenchPlayer}
    (hfresh : ∀ b ∈ rest, ¬ b.id = bf.id) :
    (bf :: rest).filter (fun b => ¬ b.id = bf.id) = rest := by
  rw [List.filter_cons]
  have : (decide ¬ bf.id = bf.id) = false := by simp
  rw [this]
  simp only [Bool.false_eq_true, if_false]
  rw [List.filter_eq_self]
  intro b hb
  simpa using hfresh b hb

/-! ### The engine invariant -/

/-- The structural invariant maintained by the booking engine on every
reachable state: the two teams always carry the nine slots in definition
order; a device owns at most one booked position; bench entries carry the
(non-empty) identifier of the device that joined, pairwise distinct; and no
device is simultaneously on the bench and in a booked position. -/
structure Inv (s : AppState) : Prop where
  keysRed : s.teamSlots.red.map BookingSlot.key = baseKeys
  keysGreen : s.teamSlots.green.map BookingSlot.key = baseKeys
  uniq : ∀ sid, ownedCount s sid ≤ 1
  benchOwner : ∀ b ∈ s.bench, ∃ x, b.sessionId = some x ∧ ¬ x = ""
  benchNodup : (s.bench.map BenchPlayer.sessionId).Nodup
  disj : ∀ b ∈ s.bench, ∀ sl ∈ slotsOf s, sl.booked = true → ¬ b.sessionId = some sl.sessionId

theorem baseKeys_nodup : baseKeys.Nodup := by decide

theorem mem_baseKeys (k : PosKey) : k ∈ baseKeys := by cases k <;> decide

theorem mem_slotsOf_of_mem_get {s : AppState} {t : TeamId} {sl : BookingSlot}
    (h : sl ∈ s.teamSlots.get t) : sl ∈ slotsOf s := by
  cases t
  · exact List.mem_append.mpr (.inl h)
  · exact List.mem_append.mpr (.inr h)

theorem countP_split3 (p : BookingSlot → Bool) (l₁ l₂ : List BookingSlot)
    (x : BookingSlot) :
    (l₁ ++ x :: l₂).countP p =
      l₁.countP p + (if p x = true then 1 else 0) + l₂.countP p := by
  by_cases h : p x
  all_goals simp [List.countP_append, List.countP_cons, h]
  all_goals try omega

/-- Splitting a team's slot list around its (unique) slot with a given key. -/
theorem team_split {s : AppState} (hInv : Inv s) (team : TeamId) (key : PosKey) :
    ∃ l₁ sl₀ l₂, s.teamSlots.get team = l₁ ++ sl₀ :: l₂ ∧ sl₀.key = key ∧
      (∀ sl ∈ l₁, ¬ sl.key = key) ∧ (∀ sl ∈ l₂, ¬ sl.key = key) := by
  have hkeys : (s.teamSlots.get team).map BookingSlot.key = baseKeys := by
    cases team
    · exact hInv.keysRed
    · exact hInv.keysGreen
  exact keys_split (hkeys ▸ baseKeys_nodup) (hkeys ▸ mem_baseKeys key)

theorem slotsOf_eq_red (s : AppState) :
    slotsOf s = s.teamSlots.get .red ++ s.teamSlots.green := rfl

theorem slotsOf_eq_green (s : AppState) :
    slotsOf s = s.teamSlots.red ++ s.teamSlots.get .green := rfl

theorem inv_initial : Inv initialState := by
  refine ⟨rfl, rfl, ?_, by simp [initialState], by simp [initialState], by simp [initialState]⟩
  intro sid
  have hz : (slotsOf initialState).countP (ownsP sid) = 0 := by
    rw [List.countP_eq_zero]
    intro sl hsl
    have hbk : sl.booked = false := by
      rcases List.mem_append.mp hsl with hm | hm <;>
      · obtain ⟨b, _, rfl⟩ := List.mem_map.mp hm
        rfl
    simp [ownsP, hbk]
  unfold ownedCount
  omega

theorem bookSlotIn_slots_red (s : AppState) (key : PosKey) (pn : Option String)
    (sid : String) :
    slotsOf (bookSlotIn s .red key pn sid) =
      updAt key (fun sl => { sl with booked := true, playerName := pn, sessionId := sid })
        (s.teamSlots.get .red) ++ s.teamSlots.green := rfl

theorem bookSlotIn_slots_green (s : AppState) (key : PosKey) (pn : Option String)
    (sid : String) :
    slotsOf (bookSlotIn s .green key pn sid) =
      s.teamSlots.red ++
        updAt key (fun sl => { sl with booked := true, playerName := pn, sessionId := sid })
          (s.teamSlots.get .green) := rfl

theorem bookSlotIn_bench (s : AppState) (team : TeamId) (key : PosKey)
    (pn : Option String) (sid : String) :
    (bookSlotIn s team key pn sid).bench = s.bench := by
  cases team <;> rfl

/-- Booking a slot for a device that (up to re-booking its own slot) holds no
other booking and no bench entry preserves the invariant. -/
theorem inv_book_update {s : AppState} (hInv : Inv s) (sid : String) (team : TeamId)
    (key : PosKey) (pn : Option String) (hsid : ¬ sid = "")
    (hdb : deviceBooking s sid = none ∨
      ∃ sl, deviceBooking s sid = some (team, sl) ∧ sl.key = key)
    (hbe : deviceBenchEntry s sid = none) :
    Inv (bookSlotIn s team key pn sid) := by
  obtain ⟨l₁, sl₀, l₂, hsplit, h₀, h₁, h₂⟩ := team_split hInv team key
  have hupd : updAt key
      (fun sl => { sl with booked := true, playerName := pn, sessionId := sid })
      (s.teamSlots.get team) =
      l₁ ++ { sl₀ with booked := true, playerName := pn, sessionId := sid } :: l₂ := by
    rw [hsplit]
    exact updAt_split key _ l₁ sl₀ l₂ h₀ h₁ h₂
  have hbench := (deviceBenchEntry_none_iff hsid).mp hbe
  -- facts used by the ownership-count argument
  have hcase : (sl₀.booked = true ∧ sl₀.sessionId = sid) ∨
      (∀ sl ∈ slotsOf s, sl.booked = true → ¬ sl.sessionId = sid) := by
    rcases hdb with hnone | ⟨sl', hsome, hkey'⟩
    · exact .inr (deviceBooking_none_forall hsid hnone)
    · left
      obtain ⟨hmem, hbk, hsid', _⟩ := deviceBooking_some_spec hsome
      rw [hsplit] at hmem
      have : sl' = sl₀ := by
        rcases List.mem_append.mp hmem with hm | hm
        · exact absurd hkey' (h₁ sl' hm)
        · rcases List.mem_cons.mp hm with rfl | hm'
          · rfl
          · exact absurd hkey' (h₂ sl' hm')
      rw [← this]
      exact ⟨hbk, hsid'⟩
  have hmem₁ : ∀ sl ∈ l₁, sl ∈ slotsOf s := fun sl hsl =>
    mem_slotsOf_of_mem_get (hsplit ▸ List.mem_append.mpr (.inl hsl))
  have hmem₂ : ∀ sl ∈ l₂, sl ∈ slotsOf s := fun sl hsl =>
    mem_slotsOf_of_mem_get
      (hsplit ▸ List.mem_append.mpr (.inr (List.mem_cons.mpr (.inr hsl))))
  constructor
  case keysRed =>
    cases team
    · show (updAt key _ (s.teamSlots.get .red)).map BookingSlot.key = baseKeys
      rw [updAt_map_key key
        (fun sl => { sl with booked := true, playerName := pn, sessionId := sid })
        (fun sl => rfl)]
      exact hInv.keysRed
    · exact hInv.keysRed
  case keysGreen =>
    cases team
    · exact hInv.keysGreen
    · show (updAt key _ (s.teamSlots.get .green)).map BookingSlot.key = baseKeys
      rw [updAt_map_key key
        (fun sl => { sl with booked := true, playerName := pn, sessionId := sid })
        (fun sl => rfl)]
      exact hInv.keysGreen
  case uniq =>
    intro sid'
    have hold := hInv.uniq sid'
    -- zero-count helper for the no-other-booking case
    have hzero : (∀ sl ∈ slotsOf s, sl.booked = true → ¬ sl.sessionId = sid) → sid' = sid →
        ∀ l : List BookingSlot, (∀ sl ∈ l, sl ∈ slotsOf s) → l.countP (ownsP sid') = 0 := by
      intro hforall hss l hsub
      rw [List.countP_eq_zero]
      intro sl hsl
      have := hforall sl (hsub sl hsl)
      simp only [ownsP, Bool.and_eq_true, beq_iff_eq, not_and, hss]
      intro hbk
      exact this hbk
    have hpf : ownsP sid' { sl₀ with booked := true, playerName := pn, sessionId := sid } =
        (sid == sid') := by
      simp [ownsP]
    unfold ownedCount at hold ⊢
    cases team
    · rw [bookSlotIn_slots_red, hupd]
      rw [slotsOf_eq_red s, hsplit] at hold
      rw [List.countP_append, countP_split3] at hold
      rw [List.countP_append, countP_split3, hpf]
      rcases hcase with ⟨hbk₀, hsid₀⟩ | hforall
      · have hp₀ : ownsP sid' sl₀ = (sid == sid') := by
          simp [ownsP, hbk₀, hsid₀]
        rw [hp₀] at hold
        exact hold
      · by_cases hss : sid' = sid
        · have z₁ := hzero hforall hss l₁ hmem₁
          have z₂ := hzero hforall hss l₂ hmem₂
          have zg := hzero hforall hss s.teamSlots.green
            (fun sl hsl => List.mem_append.mpr (.inr hsl))
          rw [z₁, z₂, zg]
          simp [hss]
        · have hne : (sid == sid') = false := by
            simp only [beq_eq_false_iff_ne, ne_eq]
            intro hcon
            exact hss hcon.symm
          rw [hne]
          simp only [Bool.false_eq_true, if_false] at hold ⊢
          omega
    · rw [bookSlotIn_slots_green, hupd]
      rw [slotsOf_eq_green s, hsplit] at hold
      rw [List.countP_append, countP_split3] at hold
      rw [List.countP_append, countP_split3, hpf]
      rcases hcase with ⟨hbk₀, hsid₀⟩ | hforall
      · have hp₀ : ownsP sid' sl₀ = (sid == sid') := by
          simp [ownsP, hbk₀, hsid₀]
        rw [hp₀] at hold
        exact hold
      · by_cases hss : sid' = sid
        · have z₁ := hzero hforall hss l₁ hmem₁
          have z₂ := hzero hforall hss l₂ hmem₂
          have zr := hzero hforall hss s.teamSlots.red
            (fun sl hsl => List.mem_append.mpr (.inl hsl))
          rw [z₁, z₂, zr]
          simp [hss]
        · have hne : (sid == sid') = false := by
            simp only [beq_eq_false_iff_ne, ne_eq]
            intro hcon
            exact hss hcon.symm
          rw [hne]
          simp only [Bool.false_eq_true, if_false] at hold ⊢
          omega
  case benchOwner => exact hInv.benchOwner
  case benchNodup => exact hInv.benchNodup
  case disj =>
    intro b hb sl hsl hbk
    rw [bookSlotIn_bench] at hb
    cases team
    · rw [bookSlotIn_slots_red, hupd] at hsl
      rcases List.mem_append.mp hsl with hm | hm
      · rcases List.mem_append.mp hm with hm' | hm'
        · exact hInv.disj b hb sl (hmem₁ sl hm') hbk
        · rcases List.mem_cons.mp hm' with rfl | hm''
          · exact hbench b hb
          · exact hInv.disj b hb sl (hmem₂ sl hm'') hbk
      · exact hInv.disj b hb sl (List.mem_append.mpr (.inr hm)) hbk
    · rw [bookSlotIn_slots_green, hupd] at hsl
      rcases List.mem_append.mp hsl with hm | hm
      · exact hInv.disj b hb sl (List.mem_append.mpr (.inl hm)) hbk
      · rcases List.mem_append.mp hm with hm' | hm'
        · exact hInv.disj b hb sl (hmem₁ sl hm') hbk
        · rcases List.mem_cons.mp hm' with rfl | hm''
          · exact hbench b hb
          · exact hInv.disj b hb sl (hmem₂ sl hm'') hbk

/-! ### Anatomy of the claim and bench operations -/

theorem handleOpenBooking_eq_some_case {s : AppState} {sid : String} {t : TeamId}
    {sl : BookingSlot} (team : TeamId) (key : PosKey)
    (hdb : deviceBooking s sid = some (t, sl)) :
    handleOpenBooking s sid team key =
      if t = team ∧ sl.key = key then
        (if (deviceBenchEntry s sid).isSome then some benchConflictAlert else none)
      else some doubleBookingAlert := by
  unfold handleOpenBooking
  rw [hdb]

theorem handleOpenBooking_eq_none_case {s : AppState} {sid : String}
    (team : TeamId) (key : PosKey) (hdb : deviceBooking s sid = none) :
    handleOpenBooking s sid team key =
      (if (deviceBenchEntry s sid).isSome then some benchConflictAlert else none) := by
  unfold handleOpenBooking
  rw [hdb]

theorem handleOpenBooking_none_spec {s : AppState} {sid : String} {team : TeamId}
    {key : PosKey} (h : handleOpenBooking s sid team key = none) :
    deviceBenchEntry s sid = none ∧
    (deviceBooking s sid = none ∨
      ∃ sl, deviceBooking s sid = some (team, sl) ∧ sl.key = key) := by
  cases hdb : deviceBooking s sid with
  | none =>
    rw [handleOpenBooking_eq_none_case team key hdb] at h
    refine ⟨?_, .inl rfl⟩
    by_cases hbe : (deviceBenchEntry s sid).isSome
    · rw [if_pos hbe] at h
      exact absurd h (by simp)
    · exact Option.not_isSome_iff_eq_none.mp hbe
  | some tb =>
    obtain ⟨t, sl⟩ := tb
    rw [handleOpenBooking_eq_some_case team key hdb] at h
    by_cases hsame : t = team ∧ sl.key = key
    · rw [if_pos hsame] at h
      refine ⟨?_, .inr ⟨sl, ?_, hsame.2⟩⟩
      · by_cases hbe : (deviceBenchEntry s sid).isSome
        · rw [if_pos hbe] at h
          exact absurd h (by simp)
        · exact Option.not_isSome_iff_eq_none.mp hbe
      · rw [hsame.1]
    · rw [if_neg hsame] at h
      exact absurd h (by simp)

theorem claimPosition_eq_open_some {s : AppState} {sid : String} {team : TeamId}
    {key : PosKey} {m : String} (name : String)
    (ho : handleOpenBooking s sid team key = some m) :
    claimPosition s sid team key name = ⟨s, some m⟩ := by
  unfold claimPosition
  rw [ho]

theorem claimPosition_eq_open_none {s : AppState} {sid : String} {team : TeamId}
    {key : PosKey} (name : String)
    (ho : handleOpenBooking s sid team key = none) :
    claimPosition s sid team key name = handleConfirmBooking s sid team key name := by
  unfold claimPosition
  rw [ho]

theorem handleConfirmBooking_eq_empty {s : AppState} {sid : String} {team : TeamId}
    {key : PosKey} {name : String} (h : jsTrim name = "") :
    handleConfirmBooking s sid team key name = ⟨s, none⟩ := by
  unfold handleConfirmBooking
  rw [if_pos h]

theorem handleConfirmBooking_eq_bench {s : AppState} {sid : String} {team : TeamId}
    {key : PosKey} {name : String} (h1 : ¬ jsTrim name = "")
    (h2 : (deviceBenchEntry s sid).isSome = true) :
    handleConfirmBooking s sid team key name = ⟨s, some benchConflictAlert⟩ := by
  unfold handleConfirmBooking
  rw [if_neg h1]
  exact if_pos h2

theorem handleConfirmBooking_eq_success {s : AppState} {sid : String} {team : TeamId}
    {key : PosKey} {name : String} (h1 : ¬ jsTrim name = "")
    (h2 : ¬ (deviceBenchEntry s sid).isSome = true) :
    handleConfirmBooking s sid team key name =
      ⟨bookSlotIn s team key (some (jsTrim name)) sid, none⟩ := by
  unfold handleConfirmBooking
  rw [if_neg h1]
  exact if_neg h2

theorem claimPosition_state_cases (s : AppState) (sid : String) (team : TeamId)
    (key : PosKey) (name : String) :
    (claimPosition s sid team key name).state = s ∨
    ((claimPosition s sid team key name).state =
        bookSlotIn s team key (some (jsTrim name)) sid ∧
      deviceBenchEntry s sid = none ∧
      (deviceBooking s sid = none ∨
        ∃ sl, deviceBooking s sid = some (team, sl) ∧ sl.key = key)) := by
  cases ho : handleOpenBooking s sid team key with
  | some m =>
    rw [claimPosition_eq_open_some name ho]
    exact .inl rfl
  | none =>
    have hspec := handleOpenBooking_none_spec ho
    rw [claimPosition_eq_open_none name ho]
    by_cases h1 : jsTrim name = ""
    · rw [handleConfirmBooking_eq_empty h1]
      exact .inl rfl
    · rw [handleConfirmBooking_eq_success h1 (by rw [hspec.1]; simp)]
      exact .inr ⟨rfl, hspec.1, hspec.2⟩

theorem claimPosition_blocked_state {s : AppState} {sid : String} {team : TeamId}
    {key : PosKey} {name : String}
    (h : ¬ (claimPosition s sid team key name).blocked = none) :
    (claimPosition s sid team key name).state = s := by
  cases ho : handleOpenBooking s sid team key with
  | some m =>
    rw [claimPosition_eq_open_some name ho]
  | none =>
    rw [claimPosition_eq_open_none name ho] at h ⊢
    by_cases h1 : jsTrim name = ""
    · rw [handleConfirmBooking_eq_empty h1]
    · by_cases h2 : (deviceBenchEntry s sid).isSome = true
      · rw [handleConfirmBooking_eq_bench h1 h2]
      · rw [handleConfirmBooking_eq_success h1 h2] at h
        exact absurd rfl h

theorem handleOpenBenchBooking_none_spec {s : AppState} {sid : String}
    (h : handleOpenBenchBooking s sid = none) :
    deviceBooking s sid = none ∧ deviceBenchEntry s sid = none := by
  unfold handleOpenBenchBooking at h
  by_cases h1 : (deviceBooking s sid).isSome
  · rw [if_pos h1] at h
    exact absurd h (by simp)
  · rw [if_neg h1] at h
    by_cases h2 : (deviceBenchEntry s sid).isSome
    · rw [if_pos h2] at h
      exact absurd h (by simp)
    · exact ⟨Option.not_isSome_iff_eq_none.mp h1, Option.not_isSome_iff_eq_none.mp h2⟩

theorem joinBench_eq_open_some {s : AppState} {sid : String} {m : String}
    (tempId : Nat) (name : String) (ho : handleOpenBenchBooking s sid = some m) :
    joinBench s sid tempId name = ⟨s, some m⟩ := by
  unfold joinBench
  rw [ho]

theorem joinBench_eq_open_none {s : AppState} {sid : String}
    (tempId : Nat) (name : String) (ho : handleOpenBenchBooking s sid = none) :
    joinBench s sid tempId name = ⟨handleConfirmBenchBooking s sid tempId name, none⟩ := by
  unfold joinBench
  rw [ho]

theorem joinBench_state_cases (s : AppState) (sid : String) (tempId : Nat)
    (name : String) :
    (joinBench s sid tempId name).state = s ∨
    ((joinBench s sid tempId name).state =
        { s with bench := s.bench ++ [⟨tempId, jsTrim name, some sid⟩] } ∧
      deviceBooking s sid = none ∧ deviceBenchEntry s sid = none) := by
  cases ho : handleOpenBenchBooking s sid with
  | some m =>
    rw [joinBench_eq_open_some tempId name ho]
    exact .inl rfl
  | none =>
    have hgates := handleOpenBenchBooking_none_spec ho
    rw [joinBench_eq_open_none tempId name ho]
    unfold handleConfirmBenchBooking
    by_cases h1 : jsTrim name = ""
    · rw [if_pos h1]
      exact .inl rfl
    · rw [if_neg h1]
      exact .inr ⟨rfl, hgates.1, hgates.2⟩

theorem handleCancelBooking_state_cases (s : AppState) (sid : String) (team : TeamId)
    (key : PosKey) (force : Bool) :
    (handleCancelBooking s sid team key force).state = s ∨
    (handleCancelBooking s sid team key force).state = cancelApply s team key := by
  cases hf : (s.teamSlots.get team).find? (fun sl => sl.key = key) with
  | none =>
    left
    unfold handleCancelBooking
    rw [hf]
  | some slot =>
    by_cases hc : force = false ∧ ¬ slot.sessionId = "" ∧ ¬ sid = "" ∧ ¬ slot.sessionId = sid
    · left
      rw [handleCancelBooking_blocked hf hc]
    · right
      have hok : force = true ∨ slot.sessionId = "" ∨ sid = "" ∨ slot.sessionId = sid := by
        by_cases h1 : force = true
        · exact .inl h1
        · have hf0 : force = false := by
            cases force
            · rfl
            · exact absurd rfl h1
          by_cases h2 : slot.sessionId = ""
          · exact .inr (.inl h2)
          · by_cases h3 : sid = ""
            · exact .inr (.inr (.inl h3))
            · by_cases h4 : slot.sessionId = sid
              · exact .inr (.inr (.inr h4))
              · exact absurd ⟨hf0, h2, h3, h4⟩ hc
      rw [handleCancelBooking_not_blocked hf hok]

theorem handleCancelBenchPlayer_eq_found {s : AppState} {sid : String} {benchId : Nat}
    {player : BenchPlayer} (force : Bool)
    (hf : s.bench.find? (fun b => b.id = benchId) = some player) :
    handleCancelBenchPlayer s sid benchId force =
      if force = false ∧ (∃ x, player.sessionId = some x ∧ ¬ x = "") ∧ ¬ sid = ""
          ∧ ¬ player.sessionId = some sid then
        ⟨s, some cancelOtherBenchAlert⟩
      else ⟨{ s with bench := s.bench.filter (fun b => ¬ b.id = benchId) }, none⟩ := by
  unfold handleCancelBenchPlayer
  rw [hf]

theorem handleCancelBenchPlayer_state_cases (s : AppState) (sid : String)
    (benchId : Nat) (force : Bool) :
    (handleCancelBenchPlayer s sid benchId force).state = s ∨
    (handleCancelBenchPlayer s sid benchId force).state =
      { s with bench := s.bench.filter (fun b => ¬ b.id = benchId) } := by
  cases hf : s.bench.find? (fun b => b.id = benchId) with
  | none =>
    left
    unfold handleCancelBenchPlayer
    rw [hf]
  | some player =>
    rw [handleCancelBenchPlayer_eq_found force hf]
    by_cases hc : force = false ∧ (∃ x, player.sessionId = some x ∧ ¬ x = "") ∧
        ¬ sid = "" ∧ ¬ player.sessionId = some sid
    · left
      rw [if_pos hc]
    · right
      rw [if_neg hc]

theorem handleResetLineup_state_cases (s : AppState) (admin confirmed : Bool) :
    (handleResetLineup s admin confirmed).state = s ∨
    (handleResetLineup s admin confirmed).state = initialState := by
  unfold handleResetLineup
  by_cases h1 : admin = false
  · rw [if_pos h1]
    exact .inl rfl
  · rw [if_neg h1]
    by_cases h2 : confirmed = false
    · rw [if_pos h2]
      exact .inl rfl
    · rw [if_neg h2]
      exact .inr rfl

/-! ### Invariant preservation for the remaining operations -/

theorem slotsOf_set_red (ts : TeamSlots) (bench : List BenchPlayer)
    (l : List BookingSlot) : slotsOf ⟨ts.set .red l, bench⟩ = l ++ ts.green := rfl

theorem slotsOf_set_green (ts : TeamSlots) (bench : List BenchPlayer)
    (l : List BookingSlot) : slotsOf ⟨ts.set .green l, bench⟩ = ts.red ++ l := rfl

theorem inv_cancelApply {s : AppState} (hInv : Inv s) (team : TeamId) (key : PosKey) :
    Inv (cancelApply s team key) := by
  obtain ⟨l₁, sl₀, l₂, hsplit, h₀, h₁, h₂⟩ := team_split hInv team key
  have hclear : updAt key clearSlotFields (s.teamSlots.get team) =
      l₁ ++ clearSlotFields sl₀ :: l₂ := by
    rw [hsplit]
    exact updAt_split key _ l₁ sl₀ l₂ h₀ h₁ h₂
  have hmem₁ : ∀ sl ∈ l₁, sl ∈ slotsOf s := fun sl hsl =>
    mem_slotsOf_of_mem_get (hsplit ▸ List.mem_append.mpr (.inl hsl))
  have hmem₂ : ∀ sl ∈ l₂, sl ∈ slotsOf s := fun sl hsl =>
    mem_slotsOf_of_mem_get
      (hsplit ▸ List.mem_append.mpr (.inr (List.mem_cons.mpr (.inr hsl))))
  cases hb : s.bench with
  | nil =>
    rw [cancelApply_empty_bench team key hb]
    constructor
    case keysRed =>
      cases team
      · show (updAt key clearSlotFields (s.teamSlots.get .red)).map BookingSlot.key = baseKeys
        rw [updAt_map_key key clearSlotFields (fun sl => rfl)]
        exact hInv.keysRed
      · exact hInv.keysRed
    case keysGreen =>
      cases team
      · exact hInv.keysGreen
      · show (updAt key clearSlotFields (s.teamSlots.get .green)).map BookingSlot.key = baseKeys
        rw [updAt_map_key key clearSlotFields (fun sl => rfl)]
        exact hInv.keysGreen
    case uniq =>
      intro sid'
      have hold := hInv.uniq sid'
      unfold ownedCount at hold ⊢
      have hpc : ownsP sid' (clearSlotFields sl₀) = false := by
        simp [ownsP, clearSlotFields]
      cases team
      · rw [slotsOf_set_red, hclear, List.countP_append, countP_split3, hpc]
        rw [slotsOf_eq_red s, hsplit, List.countP_append, countP_split3] at hold
        simp only [Bool.false_eq_true, if_false]
        split at hold
        all_goals omega
      · rw [slotsOf_set_green, hclear, List.countP_append, countP_split3, hpc]
        rw [slotsOf_eq_green s, hsplit, List.countP_append, countP_split3] at hold
        simp only [Bool.false_eq_true, if_false]
        split at hold
        all_goals omega
    case benchOwner => exact hInv.benchOwner
    case benchNodup => exact hInv.benchNodup
    case disj =>
      intro b hbm sl hsl hbk
      cases team
      · rw [slotsOf_set_red, hclear] at hsl
        rcases List.mem_append.mp hsl with hm | hm
        · rcases List.mem_append.mp hm with hm' | hm'
          · exact hInv.disj b hbm sl (hmem₁ sl hm') hbk
          · rcases List.mem_cons.mp hm' with rfl | hm''
            · exact absurd hbk (by simp [clearSlotFields])
            · exact hInv.disj b hbm sl (hmem₂ sl hm'') hbk
        · exact hInv.disj b hbm sl (List.mem_append.mpr (.inr hm)) hbk
      · rw [slotsOf_set_green, hclear] at hsl
        rcases List.mem_append.mp hsl with hm | hm
        · exact hInv.disj b hbm sl (List.mem_append.mpr (.inl hm)) hbk
        · rcases List.mem_append.mp hm with hm' | hm'
          · exact hInv.disj b hbm sl (hmem₁ sl hm') hbk
          · rcases List.mem_cons.mp hm' with rfl | hm''
            · exact absurd hbk (by simp [clearSlotFields])
            · exact hInv.disj b hbm sl (hmem₂ sl hm'') hbk
  | cons bf rest =>
    rw [cancelApply_cons_bench team key hb]
    have hbfmem : bf ∈ s.bench := by
      rw [hb]
      exact List.mem_cons_self bf rest
    obtain ⟨x, hx, hxne⟩ := hInv.benchOwner bf hbfmem
    have hpromo : updAt key (promoteFields bf)
        (updAt key clearSlotFields (s.teamSlots.get team)) =
        l₁ ++ promoteFields bf (clearSlotFields sl₀) :: l₂ := by
      rw [hclear]
      exact updAt_split key _ l₁ (clearSlotFields sl₀) l₂ h₀ h₁ h₂
    have hxsess : (promoteFields bf (clearSlotFields sl₀)).sessionId = x := by
      simp [promoteFields, hx]
    constructor
    case keysRed =>
      cases team
      · show (updAt key (promoteFields bf)
            (updAt key clearSlotFields (s.teamSlots.get .red))).map BookingSlot.key = baseKeys
        rw [updAt_map_key key (promoteFields bf) (fun sl => rfl),
          updAt_map_key key clearSlotFields (fun sl => rfl)]
        exact hInv.keysRed
      · exact hInv.keysRed
    case keysGreen =>
      cases team
      · exact hInv.keysGreen
      · show (updAt key (promoteFields bf)
            (updAt key clearSlotFields (s.teamSlots.get .green))).map BookingSlot.key = baseKeys
        rw [updAt_map_key key (promoteFields bf) (fun sl => rfl),
          updAt_map_key key clearSlotFields (fun sl => rfl)]
        exact hInv.keysGreen
    case uniq =>
      intro sid'
      have hold := hInv.uniq sid'
      unfold ownedCount at hold ⊢
      have hpx : ownsP sid' (promoteFields bf (clearSlotFields sl₀)) = (x == sid') := by
        simp [ownsP, promoteFields, hx]
      have hzero : x = sid' →
          ∀ l : List BookingSlot, (∀ sl ∈ l, sl ∈ slotsOf s) → l.countP (ownsP sid') = 0 := by
        intro hss l hsub
        rw [List.countP_eq_zero]
        intro sl hsl
        have hdisj := hInv.disj bf hbfmem sl (hsub sl hsl)
        simp only [ownsP, Bool.and_eq_true, beq_iff_eq, not_and]
        intro hbk hcon
        exact hdisj hbk (by rw [hx, hss, ← hcon])
      cases team
      · rw [slotsOf_set_red, hpromo, List.countP_append, countP_split3, hpx]
        rw [slotsOf_eq_red s, hsplit, List.countP_append, countP_split3] at hold
        by_cases hss : x = sid'
        · rw [hzero hss l₁ hmem₁, hzero hss l₂ hmem₂,
            hzero hss s.teamSlots.green (fun sl hsl => List.mem_append.mpr (.inr hsl))]
          simp [hss]
        · rw [show (x == sid') = false by simp [hss]]
          simp only [Bool.false_eq_true, if_false]
          split at hold
          all_goals omega
      · rw [slotsOf_set_green, hpromo, List.countP_append, countP_split3, hpx]
        rw [slotsOf_eq_green s, hsplit, List.countP_append, countP_split3] at hold
        by_cases hss : x = sid'
        · rw [hzero hss l₁ hmem₁, hzero hss l₂ hmem₂,
            hzero hss s.teamSlots.red (fun sl hsl => List.mem_append.mpr (.inl hsl))]
          simp [hss]
        · rw [show (x == sid') = false by simp [hss]]
          simp only [Bool.false_eq_true, if_false]
          split at hold
          all_goals omega
    case benchOwner =>
      intro b hbm
      have hbm' : b ∈ List.filter (fun b => ¬ b.id = bf.id) (bf :: rest) := hbm
      exact hInv.benchOwner b (hb ▸ List.mem_of_mem_filter hbm')
    case benchNodup =>
      have hnd := hInv.benchNodup
      rw [hb] at hnd
      show (List.map BenchPlayer.sessionId
        (List.filter (fun b => ¬ b.id = bf.id) (bf :: rest))).Nodup
      exact hnd.sublist ((List.filter_sublist (bf :: rest)).map BenchPlayer.sessionId)
    case disj =>
      intro b hbm sl hsl hbk
      have hbm' : b ∈ List.filter (fun b => ¬ b.id = bf.id) (bf :: rest) := hbm
      have hbmem : b ∈ bf :: rest := List.mem_of_mem_filter hbm'
      have hbid : ¬ b.id = bf.id := by simpa using List.of_mem_filter hbm'
      have hbs : b ∈ s.bench := hb ▸ hbmem
      have hpromoted : ∀ hcase : sl = promoteFields bf (clearSlotFields sl₀),
          ¬ b.sessionId = some sl.sessionId := by
        intro hcase
        rw [hcase, hxsess]
        have hnd := hInv.benchNodup
        rw [hb, List.map_cons, List.nodup_cons] at hnd
        have hbrest : b ∈ rest := by
          rcases List.mem_cons.mp hbmem with rfl | hm
          · exact absurd rfl hbid
          · exact hm
        intro hcon
        exact hnd.1 (hx ▸ hcon ▸ List.mem_map_of_mem BenchPlayer.sessionId hbrest)
      cases team
      · rw [slotsOf_set_red, hpromo] at hsl
        rcases List.mem_append.mp hsl with hm | hm
        · rcases List.mem_append.mp hm with hm' | hm'
          · exact hInv.disj b hbs sl (hmem₁ sl hm') hbk
          · rcases List.mem_cons.mp hm' with hmp | hm''
            · exact hpromoted hmp
            · exact hInv.disj b hbs sl (hmem₂ sl hm'') hbk
        · exact hInv.disj b hbs sl (List.mem_append.mpr (.inr hm)) hbk
      · rw [slotsOf_set_green, hpromo] at hsl
        rcases List.mem_append.mp hsl with hm | hm
        · exact hInv.disj b hbs sl (List.mem_append.mpr (.inl hm)) hbk
        · rcases List.mem_append.mp hm with hm' | hm'
          · exact hInv.disj b hbs sl (hmem₁ sl hm') hbk
          · rcases List.mem_cons.mp hm' with hmp | hm''
            · exact hpromoted hmp
            · exact hInv.disj b hbs sl (hmem₂ sl hm'') hbk

theorem inv_benchAppend {s : AppState} (hInv : Inv s) (sid : String) (tempId : Nat)
    (pname : String) (hsid : ¬ sid = "") (hdb : deviceBooking s sid = none)
    (hbe : deviceBenchEntry s sid = none) :
    Inv { s with bench := s.bench ++ [⟨tempId, pname, some sid⟩] } := by
  have hbench := (deviceBenchEntry_none_iff hsid).mp hbe
  have hnob := deviceBooking_none_forall hsid hdb
  constructor
  case keysRed => exact hInv.keysRed
  case keysGreen => exact hInv.keysGreen
  case uniq => exact hInv.uniq
  case benchOwner =>
    intro b hbm
    rcases List.mem_append.mp hbm with hm | hm
    · exact hInv.benchOwner b hm
    · rw [List.mem_singleton.mp hm]
      exact ⟨sid, rfl, hsid⟩
  case benchNodup =>
    rw [List.map_append, List.nodup_append]
    refine ⟨hInv.benchNodup, by simp, ?_⟩
    intro a ha ha2
    obtain ⟨b, hbm, rfl⟩ := List.mem_map.mp ha
    simp only [List.map_cons, List.map_nil, List.mem_singleton] at ha2
    exact hbench b hbm ha2
  case disj =>
    intro b hbm sl hsl hbk
    rcases List.mem_append.mp hbm with hm | hm
    · exact hInv.disj b hm sl hsl hbk
    · rw [List.mem_singleton.mp hm]
      intro hcon
      exact hnob sl hsl hbk (Option.some.inj hcon).symm

theorem inv_benchFilter {s : AppState} (hInv : Inv s) (p : BenchPlayer → Bool) :
    Inv { s with bench := s.bench.filter p } := by
  constructor
  case keysRed => exact hInv.keysRed
  case keysGreen => exact hInv.keysGreen
  case uniq => exact hInv.uniq
  case benchOwner =>
    intro b hbm
    exact hInv.benchOwner b (List.mem_of_mem_filter hbm)
  case benchNodup =>
    exact hInv.benchNodup.sublist ((List.filter_sublist s.bench).map BenchPlayer.sessionId)
  case disj =>
    intro b hbm sl hsl hbk
    exact hInv.disj b (List.mem_of_mem_filter hbm) sl hsl hbk

theorem inv_step {s s' : AppState} (hInv : Inv s) (h : Step s s') : Inv s' := by
  cases h with
  | claim sid team key name hsid =>
    rcases claimPosition_state_cases s sid team key name with heq | ⟨heq, hbe, hdb⟩
    · rw [heq]
      exact hInv
    · rw [heq]
      exact inv_book_update hInv sid team key (some (jsTrim name)) hsid hdb hbe
  | cancel sid team key force =>
    rcases handleCancelBooking_state_cases s sid team key force with heq | heq
    · rw [heq]
      exact hInv
    · rw [heq]
      exact inv_cancelApply hInv team key
  | benchJoin sid tempId name hsid =>
    rcases joinBench_state_cases s sid tempId name with heq | ⟨heq, hdb, hbe⟩
    · rw [heq]
      exact hInv
    · rw [heq]
      exact inv_benchAppend hInv sid tempId (jsTrim name) hsid hdb hbe
  | benchLeave sid benchId force =>
    rcases handleCancelBenchPlayer_state_cases s sid benchId force with heq | heq
    · rw [heq]
      exact hInv
    · rw [heq]
      exact inv_benchFilter hInv _
  | reset admin confirmed =>
    rcases handleResetLineup_state_cases s admin confirmed with heq | heq
    · rw [heq]
      exact hInv
    · rw [heq]
      exact inv_initial

theorem reachable_inv {s : AppState} (h : Reachable s) : Inv s := by
  induction h with
  | init => exact inv_initial
  | step _ hstep ih => exact inv_step ih hstep

/-! ### Outcome of a permitted cancellation -/

theorem not_blocked_cond {slot : BookingSlot} {sid : String} {force : Bool}
    (hc : ¬ (force = false ∧ ¬ slot.sessionId = "" ∧ ¬ sid = "" ∧
      ¬ slot.sessionId = sid)) :
    force = true ∨ slot.sessionId = "" ∨ sid = "" ∨ slot.sessionId = sid := by
  by_cases h1 : force = true
  · exact .inl h1
  · have hf0 : force = false := by
      cases force
      · rfl
      · exact absurd rfl h1
    by_cases h2 : slot.sessionId = ""
    · exact .inr (.inl h2)
    · by_cases h3 : sid = ""
      · exact .inr (.inr (.inl h3))
      · by_cases h4 : slot.sessionId = sid
        · exact .inr (.inr (.inr h4))
        · exact absurd ⟨hf0, h2, h3, h4⟩ hc

theorem handleCancelBooking_success_eq {s : AppState} {sid : String} {team : TeamId}
    {key : PosKey} {force : Bool} {slot : BookingSlot}
    (hfind : (s.teamSlots.get team).find? (fun sl => sl.key = key) = some slot)
    (hok : (handleCancelBooking s sid team key force).blocked = none) :
    handleCancelBooking s sid team key force = ⟨cancelApply s team key, none⟩ := by
  by_cases hc : force = false ∧ ¬ slot.sessionId = "" ∧ ¬ sid = "" ∧ ¬ slot.sessionId = sid
  · rw [handleCancelBooking_blocked hfind hc] at hok
    exact absurd hok (by simp)
  · exact handleCancelBooking_not_blocked hfind (not_blocked_cond hc)

/-- A permitted cancellation with a non-empty bench queue: the head entry is
promoted into the slot with the given key and exactly the head entry leaves
the queue. -/
theorem cancel_promote_spec {s : AppState} {sid : String} {team : TeamId}
    {key : PosKey} {force : Bool} {slot : BookingSlot} {bf : BenchPlayer}
    {rest : List BenchPlayer}
    (hfind : (s.teamSlots.get team).find? (fun sl => sl.key = key) = some slot)
    (hbench : s.bench = bf :: rest)
    (hfresh : ∀ b ∈ rest, ¬ b.id = bf.id)
    (hok : (handleCancelBooking s sid team key force).blocked = none) :
    (handleCancelBooking s sid team key force).state.bench = rest ∧
    ((handleCancelBooking s sid team key force).state.teamSlots.get team).find?
        (fun sl => sl.key = key) =
      some (promoteFields bf (clearSlotFields slot)) := by
  rw [handleCancelBooking_success_eq hfind hok]
  rw [show (⟨cancelApply s team key, none⟩ : OpOut).state = cancelApply s team key from rfl]
  rw [cancelApply_cons_bench team key hbench]
  constructor
  · show (bf :: rest).filter (fun b => ¬ b.id = bf.id) = rest
    exact filter_head_id hfresh
  · show ((s.teamSlots.set team _).get team).find? _ = _
    rw [TeamSlots.get_set_self]
    rw [find?_updAt key (promoteFields bf) (fun sl => rfl),
      find?_updAt key clearSlotFields (fun sl => rfl), hfind]
    rfl

/-- A permitted cancellation with an empty bench queue: the slot with the
given key is reset to its defaults and the (empty) queue is unchanged. -/
theorem cancel_clear_spec {s : AppState} {sid : String} {team : TeamId}
    {key : PosKey} {force : Bool} {slot : BookingSlot}
    (hfind : (s.teamSlots.get team).find? (fun sl => sl.key = key) = some slot)
    (hbench : s.bench = [])
    (hok : (handleCancelBooking s sid team key force).blocked = none) :
    (handleCancelBooking s sid team key force).state.bench = s.bench ∧
    ((handleCancelBooking s sid team key force).state.teamSlots.get team).find?
        (fun sl => sl.key = key) = some (clearSlotFields slot) := by
  rw [handleCancelBooking_success_eq hfind hok]
  rw [show (⟨cancelApply s team key, none⟩ : OpOut).state = cancelApply s team key from rfl]
  rw [cancelApply_empty_bench team key hbench]
  constructor
  · rfl
  · show ((s.teamSlots.set team _).get team).find? _ = _
    rw [TeamSlots.get_set_self]
    rw [find?_updAt key clearSlotFields (fun sl => rfl), hfind]
    rfl

/-- A successful claim implies that every booked slot owned by the acting
device is the claimed slot itself, and that the device has no bench entry. -/
theorem claim_success_forall {s : AppState} {sid : String} {team : TeamId}
    {key : PosKey} {name : String} (hInv : Inv s) (hsid : ¬ sid = "")
    (hok : (claimPosition s sid team key name).blocked = none) :
    (∀ t, ∀ sl ∈ s.teamSlots.get t, sl.booked = true → sl.sessionId = sid →
      t = team ∧ sl.key = key) ∧
    (∀ b ∈ s.bench, ¬ b.sessionId = some sid) := by
  cases ho : handleOpenBooking s sid team key with
  | some m =>
    rw [claimPosition_eq_open_some name ho] at hok
    exact absurd hok (by simp)
  | none =>
    have hspec := handleOpenBooking_none_spec ho
    constructor
    · intro t sl hmem hbk hsess
      rcases hspec.2 with hnone | ⟨sl', hsome, hkey'⟩
      · exact absurd hsess
          (deviceBooking_none_forall hsid hnone sl (mem_slotsOf_of_mem_get hmem) hbk)
      · obtain ⟨hmem', hbk', hsess', _⟩ := deviceBooking_some_spec hsome
        have hcount : (s.teamSlots.red ++ s.teamSlots.green).countP (ownsP sid) ≤ 1 :=
          hInv.uniq sid
        have hp : ownsP sid sl = true := ownsP_eq_true.mpr ⟨hbk, hsess⟩
        have hp' : ownsP sid sl' = true := ownsP_eq_true.mpr ⟨hbk', hsess'⟩
        by_cases hteam : t = team
        · subst hteam
          have heq : sl = sl' :=
            eq_of_countP_le_one hcount (mem_slotsOf_of_mem_get hmem)
              (mem_slotsOf_of_mem_get hmem') hp hp'
          refine ⟨rfl, ?_⟩
          rw [heq]
          exact hkey'
        · exfalso
          rw [List.countP_append] at hcount
          cases t <;> cases team
          · exact hteam rfl
          · have c1 : 0 < s.teamSlots.red.countP (ownsP sid) :=
              List.countP_pos_iff.mpr ⟨sl, hmem, hp⟩
            have c2 : 0 < s.teamSlots.green.countP (ownsP sid) :=
              List.countP_pos_iff.mpr ⟨sl', hmem', hp'⟩
            omega
          · have c1 : 0 < s.teamSlots.red.countP (ownsP sid) :=
              List.countP_pos_iff.mpr ⟨sl', hmem', hp'⟩
            have c2 : 0 < s.teamSlots.green.countP (ownsP sid) :=
              List.countP_pos_iff.mpr ⟨sl, hmem, hp⟩
            omega
          · exact hteam rfl
    · exact (deviceBenchEntry_none_iff hsid).mp hspec.1

/-! ### The claims -/

/-- C1: claiming a position (given a non-empty display name) succeeds only if
the acting device holds no other booking in either team and holds no bench
entry; violating either condition yields a blocking alert and leaves the
state unchanged. -/
theorem claim_policy_spec (s : AppState) (sid : String) (team : TeamId)
    (key : PosKey) (name : String) (hreach : Reachable s) (hsid : ¬ sid = "")
    (hname : ¬ jsTrim name = "") :
    ((claimPosition s sid team key name).blocked = none →
      (∀ t, ∀ sl ∈ s.teamSlots.get t, sl.booked = true → sl.sessionId = sid →
        t = team ∧ sl.key = key) ∧
      (∀ b ∈ s.bench, ¬ b.sessionId = some sid)) ∧
    (¬ (claimPosition s sid team key name).blocked = none →
      (claimPosition s sid team key name).state = s) ∧
    (((∃ t, ∃ sl ∈ s.teamSlots.get t, sl.booked = true ∧ sl.sessionId = sid ∧
        ¬ (t = team ∧ sl.key = key)) ∨ (∃ b ∈ s.bench, b.sessionId = some sid)) →
      ¬ (claimPosition s sid team key name).blocked = none) := by
  have hInv := reachable_inv hreach
  refine ⟨fun hok => claim_success_forall hInv hsid hok,
    fun h => claimPosition_blocked_state h, ?_⟩
  intro hviol hok
  have hsucc := claim_success_forall hInv hsid hok
  rcases hviol with ⟨t, sl, hmem, hbk, hsess, hnot⟩ | ⟨b, hbm, hbsess⟩
  · exact hnot (hsucc.1 t sl hmem hbk hsess)
  · exact hsucc.2 b hbm hbsess

/-- C2: cancelling a booked position while the bench queue is non-empty
promotes exactly the head bench entry: the position ends booked with the head
entry's name and device identifier and the queue becomes exactly its tail
(relative order of the remaining entries preserved). -/
theorem cancel_nonempty_bench_promotes (s : AppState) (sid : String) (team : TeamId)
    (key : PosKey) (force : Bool) (slot : BookingSlot) (bf : BenchPlayer)
    (rest : List BenchPlayer)
    (hfind : (s.teamSlots.get team).find? (fun sl => sl.key = key) = some slot)
    (hbooked : slot.booked = true)
    (hbench : s.bench = bf :: rest)
    (hfresh : ∀ b ∈ rest, ¬ b.id = bf.id)
    (hok : (handleCancelBooking s sid team key force).blocked = none) :
    (handleCancelBooking s sid team key force).state.bench = rest ∧
    ∃ slot', ((handleCancelBooking s sid team key force).state.teamSlots.get team).find?
        (fun sl => sl.key = key) = some slot' ∧
      slot'.booked = true ∧ slot'.playerName = some bf.playerName ∧
      slot'.sessionId = bf.sessionId.getD "" := by
  obtain ⟨h1, h2⟩ := cancel_promote_spec hfind hbench hfresh hok
  exact ⟨h1, promoteFields bf (clearSlotFields slot), h2, rfl, rfl, rfl⟩

/-- C3: in every state reachable from the initial empty state by the booking
operations, each device identifier owns at most one booked position across
both teams. -/
theorem reachable_at_most_one_booking (s : AppState) (hreach : Reachable s)
    (sid : String) : ownedCount s sid ≤ 1 :=
  (reachable_inv hreach).uniq sid

/-- C4: cancelling the position with the given key succeeds exactly when the
caller is privileged (force), the acting device is the recorded owner, or the
position has no recorded owner; otherwise a blocking alert is shown and the
state (team slots and bench queue) is unchanged. -/
theorem cancel_permission_spec (s : AppState) (sid : String) (team : TeamId)
    (key : PosKey) (force : Bool) (slot : BookingSlot)
    (hfind : (s.teamSlots.get team).find? (fun sl => sl.key = key) = some slot)
    (hsid : ¬ sid = "") :
    ((handleCancelBooking s sid team key force).blocked = none ↔
      (force = true ∨ slot.sessionId = "" ∨ slot.sessionId = sid)) ∧
    (¬ (handleCancelBooking s sid team key force).blocked = none →
      (handleCancelBooking s sid team key force).state = s) := by
  constructor
  · constructor
    · intro hok
      by_cases hc : force = false ∧ ¬ slot.sessionId = "" ∧ ¬ sid = "" ∧
          ¬ slot.sessionId = sid
      · rw [handleCancelBooking_blocked hfind hc] at hok
        exact absurd hok (by simp)
      · rcases not_blocked_cond hc with h | h | h | h
        · exact .inl h
        · exact .inr (.inl h)
        · exact absurd h hsid
        · exact .inr (.inr h)
    · intro hok
      have hok' : force = true ∨ slot.sessionId = "" ∨ sid = "" ∨ slot.sessionId = sid := by
        rcases hok with h | h | h
        · exact .inl h
        · exact .inr (.inl h)
        · exact .inr (.inr (.inr h))
      rw [handleCancelBooking_not_blocked hfind hok']
  · intro hblk
    by_cases hc : force = false ∧ ¬ slot.sessionId = "" ∧ ¬ sid = "" ∧
        ¬ slot.sessionId = sid
    · rw [handleCancelBooking_blocked hfind hc]
    · rw [handleCancelBooking_not_blocked hfind (not_blocked_cond hc)] at hblk
      exact absurd rfl hblk

/-- C5: cancelling a booked position while the bench queue is empty resets
every mutable field of that position to its default: not booked, no occupant
name, no rating, empty tags, empty note, unpaid, no owning device. -/
theorem cancel_empty_bench_clears (s : AppState) (sid : String) (team : TeamId)
    (key : PosKey) (force : Bool) (slot : BookingSlot)
    (hfind : (s.teamSlots.get team).find? (fun sl => sl.key = key) = some slot)
    (hbooked : slot.booked = true)
    (hbench : s.bench = [])
    (hok : (handleCancelBooking s sid team key force).blocked = none) :
    (handleCancelBooking s sid team key force).state.bench = [] ∧
    ∃ slot', ((handleCancelBooking s sid team key force).state.teamSlots.get team).find?
        (fun sl => sl.key = key) = some slot' ∧
      slot'.booked = false ∧ slot'.playerName = none ∧ slot'.rating = none ∧
      slot'.tags = [] ∧ slot'.note = "" ∧ slot'.paymentStatus = .unpaid ∧
      slot'.sessionId = "" := by
  obtain ⟨h1, h2⟩ := cancel_clear_spec hfind hbench hok
  rw [hbench] at h1
  exact ⟨h1, clearSlotFields slot, h2, rfl, rfl, rfl, rfl, rfl, rfl, rfl⟩

/-- C7: the privileged, confirmed reset-all yields the initial local state:
0 booked positions in each team (9 positions per team, all back to their
initial empty definitions) and an empty bench queue. -/
theorem resetLineup_spec (s : AppState) :
    (handleResetLineup s true true).state = initialState ∧
    (handleResetLineup s true true).state.teamSlots.red.countP (fun sl => sl.booked) = 0 ∧
    (handleResetLineup s true true).state.teamSlots.green.countP (fun sl => sl.booked) = 0 ∧
    (handleResetLineup s true true).state.teamSlots.red.length = 9 ∧
    (handleResetLineup s true true).state.teamSlots.green.length = 9 ∧
    (handleResetLineup s true true).state.bench = [] := by
  have hst : (handleResetLineup s true true).state = initialState := by
    unfold handleResetLineup
    rw [if_neg (by simp), if_neg (by simp)]
    rfl
  refine ⟨hst, ?_, ?_, ?_, ?_, ?_⟩ <;> rw [hst] <;> decide

/-- C8: updating position metadata changes only the fields named in the
partial update on the one targeted position; all other fields of that
position, every other position of the team, the other team, and the bench
queue are unchanged. -/
theorem updateBookingDetails_frame (s : AppState) (team : TeamId) (key : PosKey)
    (u : BookingUpdates) :
    (updateBookingDetails s team key u).bench = s.bench ∧
    (∀ t, ¬ t = team →
      (updateBookingDetails s team key u).teamSlots.get t = s.teamSlots.get t) ∧
    (∀ i : Nat, ∀ old : BookingSlot, (s.teamSlots.get team)[i]? = some old →
      ∃ new, ((updateBookingDetails s team key u).teamSlots.get team)[i]? = some new ∧
        (¬ old.key = key → new = old) ∧
        new.key = old.key ∧ new.label = old.label ∧ new.line = old.line ∧
        new.booked = old.booked ∧ new.playerName = old.playerName ∧
        new.sessionId = old.sessionId ∧
        (u.rating = none → new.rating = old.rating) ∧
        (u.tags = none → new.tags = old.tags) ∧
        (u.note = none → new.note = old.note) ∧
        (u.paymentStatus = none → new.paymentStatus = old.paymentStatus)) := by
  refine ⟨rfl, ?_, ?_⟩
  · intro t ht
    show (s.teamSlots.set team _).get t = s.teamSlots.get t
    exact TeamSlots.get_set_other _ _ _ _ ht
  · intro i old hold
    have hget : (updateBookingDetails s team key u).teamSlots.get team =
        updAt key (fun sl => applyUpdates sl u) (s.teamSlots.get team) := by
      show (s.teamSlots.set team _).get team = _
      exact TeamSlots.get_set_self _ _ _
    rw [hget]
    unfold updAt
    rw [List.getElem?_map, hold]
    by_cases hk : old.key = key
    · refine ⟨applyUpdates old u, by simp [hk], fun hcon => absurd hk hcon,
        rfl, rfl, rfl, rfl, rfl, rfl, ?_, ?_, ?_, ?_⟩
      · intro hr
        simp [applyUpdates, hr]
      · intro hr
        simp [applyUpdates, hr]
      · intro hr
        simp [applyUpdates, hr]
      · intro hr
        simp [applyUpdates, hr]
    · exact ⟨old, by simp [hk], fun _ => rfl, rfl, rfl, rfl, rfl, rfl, rfl,
        fun _ => rfl, fun _ => rfl, fun _ => rfl, fun _ => rfl⟩

/-- C9: cancel does not require the target position to be booked: on an empty
position (no occupant, no recorded owner) with a non-empty bench queue, any
caller's cancel succeeds and promotes the head bench entry into the position
(an empty-to-booked transition without a claim). -/
theorem cancel_empty_slot_promotes (s : AppState) (sid : String) (team : TeamId)
    (key : PosKey) (force : Bool) (slot : BookingSlot) (bf : BenchPlayer)
    (rest : List BenchPlayer)
    (hfind : (s.teamSlots.get team).find? (fun sl => sl.key = key) = some slot)
    (hempty : slot.booked = false)
    (hown : slot.sessionId = "")
    (hbench : s.bench = bf :: rest)
    (hfresh : ∀ b ∈ rest, ¬ b.id = bf.id) :
    (handleCancelBooking s sid team key force).blocked = none ∧
    (handleCancelBooking s sid team key force).state.bench = rest ∧
    ∃ slot', ((handleCancelBooking s sid team key force).state.teamSlots.get team).find?
        (fun sl => sl.key = key) = some slot' ∧
      slot'.booked = true ∧ slot'.playerName = some bf.playerName ∧
      slot'.sessionId = bf.sessionId.getD "" := by
  have hok : (handleCancelBooking s sid team key force).blocked = none := by
    rw [handleCancelBooking_not_blocked hfind (.inr (.inl hown))]
  obtain ⟨h1, h2⟩ := cancel_promote_spec hfind hbench hfresh hok
  exact ⟨hok, h1, promoteFields bf (clearSlotFields slot), h2, rfl, rfl, rfl⟩

/-- C10: a bench entry promoted into a cancelled position carries only its
name and device identifier; the position's rating, tags, note and payment
status are reset to defaults rather than inherited. -/
theorem promotion_resets_metadata (s : AppState) (sid : String) (team : TeamId)
    (key : PosKey) (force : Bool) (slot : BookingSlot) (bf : BenchPlayer)
    (rest : List BenchPlayer)
    (hfind : (s.teamSlots.get team).find? (fun sl => sl.key = key) = some slot)
    (hbench : s.bench = bf :: rest)
    (hfresh : ∀ b ∈ rest, ¬ b.id = bf.id)
    (hok : (handleCancelBooking s sid team key force).blocked = none) :
    ∃ slot', ((handleCancelBooking s sid team key force).state.teamSlots.get team).find?
        (fun sl => sl.key = key) = some slot' ∧
      slot'.booked = true ∧ slot'.playerName = some bf.playerName ∧
      slot'.sessionId = bf.sessionId.getD "" ∧
      slot'.rating = none ∧ slot'.tags = [] ∧ slot'.note = "" ∧
      slot'.paymentStatus = .unpaid := by
  obtain ⟨h1, h2⟩ := cancel_promote_spec hfind hbench hfresh hok
  exact ⟨promoteFields bf (clearSlotFields slot), h2, rfl, rfl, rfl, rfl, rfl, rfl, rfl⟩

/-- C6: in every reachable state, no device identifier simultaneously owns a
bench entry and a booked position; a device holding a bench entry cannot
successfully claim any position, and a device holding a booked position
cannot successfully join the bench queue (both are blocked without
mutation). -/
theorem bench_booking_exclusive (s : AppState) (hreach : Reachable s)
    (sid : String) :
    (¬ ((∃ b ∈ s.bench, b.sessionId = some sid) ∧
        (∃ sl ∈ slotsOf s, sl.booked = true ∧ sl.sessionId = sid))) ∧
    (∀ team key name, ¬ sid = "" → (∃ b ∈ s.bench, b.sessionId = some sid) →
      ¬ (claimPosition s sid team key name).blocked = none ∧
        (claimPosition s sid team key name).state = s) ∧
    (∀ tempId name, ¬ sid = "" →
      (∃ sl ∈ slotsOf s, sl.booked = true ∧ sl.sessionId = sid) →
      ¬ (joinBench s sid tempId name).blocked = none ∧
        (joinBench s sid tempId name).state = s) := by
  have hInv := reachable_inv hreach
  refine ⟨?_, ?_, ?_⟩
  · rintro ⟨⟨b, hbm, hbs⟩, ⟨sl, hsm, hbk, hss⟩⟩
    exact hInv.disj b hbm sl hsm hbk (by rw [hbs, hss])
  · intro team key name hsid hbench
    have hbe : ¬ deviceBenchEntry s sid = none := by
      intro hnone
      obtain ⟨b, hbm, hbs⟩ := hbench
      exact (deviceBenchEntry_none_iff hsid).mp hnone b hbm hbs
    have hblk : ¬ (claimPosition s sid team key name).blocked = none := by
      intro hok
      cases ho : handleOpenBooking s sid team key with
      | some m =>
        rw [claimPosition_eq_open_some name ho] at hok
        exact absurd hok (by simp)
      | none => exact hbe (handleOpenBooking_none_spec ho).1
    exact ⟨hblk, claimPosition_blocked_state hblk⟩
  · intro tempId name hsid hbooked
    have hdb : ¬ deviceBooking s sid = none := by
      intro hnone
      obtain ⟨sl, hsm, hbk, hss⟩ := hbooked
      exact deviceBooking_none_forall hsid hnone sl hsm hbk hss
    have hblk : ¬ (joinBench s sid tempId name).blocked = none := by
      intro hok
      cases ho : handleOpenBenchBooking s sid with
      | some m =>
        rw [joinBench_eq_open_some tempId name ho] at hok
        exact absurd hok (by simp)
      | none => exact hdb (handleOpenBenchBooking_none_spec ho).1
    have hst : (joinBench s sid tempId name).state = s := by
      cases ho : handleOpenBenchBooking s sid with
      | some m => rw [joinBench_eq_open_some tempId name ho]
      | none =>
        exfalso
        apply hblk
        rw [joinBench_eq_open_none tempId name ho]
    exact ⟨hblk, hst⟩

/-! ### Witnesses: the claims evaluated at concrete inputs -/

/-- Witness for C1 at the initial state: device `X` claiming red `GK` as
`Sami`. -/
theorem claim_policy_spec_witness :
    ((claimPosition initialState "X" .red .GK "Sami").blocked = none →
      (∀ t, ∀ sl ∈ initialState.teamSlots.get t, sl.booked = true → sl.sessionId = "X" →
        t = TeamId.red ∧ sl.key = PosKey.GK) ∧
      (∀ b ∈ initialState.bench, ¬ b.sessionId = some "X")) ∧
    (¬ (claimPosition initialState "X" .red .GK "Sami").blocked = none →
      (claimPosition initialState "X" .red .GK "Sami").state = initialState) ∧
    (((∃ t, ∃ sl ∈ initialState.teamSlots.get t, sl.booked = true ∧ sl.sessionId = "X" ∧
        ¬ (t = TeamId.red ∧ sl.key = PosKey.GK)) ∨
      (∃ b ∈ initialState.bench, b.sessionId = some "X")) →
      ¬ (claimPosition initialState "X" .red .GK "Sami").blocked = none) :=
  claim_policy_spec initialState "X" .red .GK "Sami" Reachable.init (by decide) (by decide)

/-- Witness for C2: red `CB1` is booked by device `X`, the bench holds
exactly `Alice` (device `Y`); `X` cancelling `CB1` leaves `CB1` booked by
`Alice`/`Y` and the bench empty. -/
theorem cancel_nonempty_bench_promotes_witness :
    (handleCancelBooking wsBench "X" .red .CB1 false).state.bench = [] ∧
    ∃ slot', ((handleCancelBooking wsBench "X" .red .CB1 false).state.teamSlots.get .red).find?
        (fun sl => sl.key = .CB1) = some slot' ∧
      slot'.booked = true ∧ slot'.playerName = some "Alice" ∧ slot'.sessionId = "Y" :=
  cancel_nonempty_bench_promotes wsBench "X" .red .CB1 false wsCB1Slot wsAlice []
    (by decide) (by decide) (by decide) (by decide) (by decide)

/-- Witness for C3 on a reachable state with one booking and one bench
entry. -/
theorem reachable_at_most_one_booking_witness : ownedCount wsBench "X" ≤ 1 :=
  reachable_at_most_one_booking wsBench
    (Reachable.step
      (Reachable.step Reachable.init
        (Step.claim initialState "X" .red .CB1 "Badr" (by decide)))
      (Step.benchJoin wsClaim "Y" 7 "Alice" (by decide)))
    "X"

/-- Witness for C4: device `Z` (not the owner) attempting to cancel `X`'s
booking of red `CB1`. -/
theorem cancel_permission_spec_witness :
    ((handleCancelBooking wsBench "Z" .red .CB1 false).blocked = none ↔
      (false = true ∨ wsCB1Slot.sessionId = "" ∨ wsCB1Slot.sessionId = "Z")) ∧
    (¬ (handleCancelBooking wsBench "Z" .red .CB1 false).blocked = none →
      (handleCancelBooking wsBench "Z" .red .CB1 false).state = wsBench) :=
  cancel_permission_spec wsBench "Z" .red .CB1 false wsCB1Slot (by decide) (by decide)

/-- Witness for C5: `X` cancelling its own red `CB1` booking with an empty
bench queue resets the slot to its defaults. -/
theorem cancel_empty_bench_clears_witness :
    (handleCancelBooking wsClaim "X" .red .CB1 false).state.bench = [] ∧
    ∃ slot', ((handleCancelBooking wsClaim "X" .red .CB1 false).state.teamSlots.get .red).find?
        (fun sl => sl.key = .CB1) = some slot' ∧
      slot'.booked = false ∧ slot'.playerName = none ∧ slot'.rating = none ∧
      slot'.tags = [] ∧ slot'.note = "" ∧ slot'.paymentStatus = .unpaid ∧
      slot'.sessionId = "" :=
  cancel_empty_bench_clears wsClaim "X" .red .CB1 false wsCB1Slot
    (by decide) (by decide) (by decide) (by decide)

/-- Witness for C6 on a reachable state, for device `Y` (which holds the
bench entry). -/
theorem bench_booking_exclusive_witness :
    (¬ ((∃ b ∈ wsBench.bench, b.sessionId = some "Y") ∧
        (∃ sl ∈ slotsOf wsBench, sl.booked = true ∧ sl.sessionId = "Y"))) ∧
    (∀ team key name, ¬ "Y" = "" → (∃ b ∈ wsBench.bench, b.sessionId = some "Y") →
      ¬ (claimPosition wsBench "Y" team key name).blocked = none ∧
        (claimPosition wsBench "Y" team key name).state = wsBench) ∧
    (∀ tempId name, ¬ "Y" = "" →
      (∃ sl ∈ slotsOf wsBench, sl.booked = true ∧ sl.sessionId = "Y") →
      ¬ (joinBench wsBench "Y" tempId name).blocked = none ∧
        (joinBench wsBench "Y" tempId name).state = wsBench) :=
  bench_booking_exclusive wsBench
    (Reachable.step
      (Reachable.step Reachable.init
        (Step.claim initialState "X" .red .CB1 "Badr" (by decide)))
      (Step.benchJoin wsClaim "Y" 7 "Alice" (by decide)))
    "Y"

/-- Witness for C8: setting only the rating of red `CB1` leaves all other
fields of that slot unchanged. -/
theorem updateBookingDetails_frame_witness :
    ∃ new, ((updateBookingDetails wsClaim .red .CB1
        ⟨some (some 9), none, none, none⟩).teamSlots.get .red)[2]? = some new ∧
      (¬ wsCB1Slot.key = .CB1 → new = wsCB1Slot) ∧
      new.key = wsCB1Slot.key ∧ new.label = wsCB1Slot.label ∧
      new.line = wsCB1Slot.line ∧ new.booked = wsCB1Slot.booked ∧
      new.playerName = wsCB1Slot.playerName ∧ new.sessionId = wsCB1Slot.sessionId ∧
      ((⟨some (some 9), none, none, none⟩ : BookingUpdates).rating = none →
        new.rating = wsCB1Slot.rating) ∧
      ((⟨some (some 9), none, none, none⟩ : BookingUpdates).tags = none →
        new.tags = wsCB1Slot.tags) ∧
      ((⟨some (some 9), none, none, none⟩ : BookingUpdates).note = none →
        new.note = wsCB1Slot.note) ∧
      ((⟨some (some 9), none, none, none⟩ : BookingUpdates).paymentStatus = none →
        new.paymentStatus = wsCB1Slot.paymentStatus) :=
  (updateBookingDetails_frame wsClaim .red .CB1 ⟨some (some 9), none, none, none⟩).2.2
    2 wsCB1Slot (by decide)

/-- Witness for C9: any device (`Z`) cancelling the empty red `GK` slot while
the bench holds `Alice`/`Y` books `GK` for `Alice`/`Y`. -/
theorem cancel_empty_slot_promotes_witness :
    (handleCancelBooking wsBench "Z" .red .GK false).blocked = none ∧
    (handleCancelBooking wsBench "Z" .red .GK false).state.bench = [] ∧
    ∃ slot', ((handleCancelBooking wsBench "Z" .red .GK false).state.teamSlots.get .red).find?
        (fun sl => sl.key = .GK) = some slot' ∧
      slot'.booked = true ∧ slot'.playerName = some "Alice" ∧ slot'.sessionId = "Y" :=
  cancel_empty_slot_promotes wsBench "Z" .red .GK false wsGKSlot wsAlice []
    (by decide) (by decide) (by decide) (by decide) (by decide)

/-- Witness for C10: red `CB1` carries a rating, tags, a note and paid
status; after cancellation the promoted `Alice`/`Y` slot has all metadata
back at defaults. -/
theorem promotion_resets_metadata_witness :
    ∃ slot', ((handleCancelBooking wsMeta "X" .red .CB1 false).state.teamSlots.get .red).find?
        (fun sl => sl.key = .CB1) = some slot' ∧
      slot'.booked = true ∧ slot'.playerName = some "Alice" ∧ slot'.sessionId = "Y" ∧
      slot'.rating = none ∧ slot'.tags = [] ∧ slot'.note = "" ∧
      slot'.paymentStatus = .unpaid :=
  promotion_resets_metadata wsMeta "X" .red .CB1 false wsCB1SlotMeta wsAlice []
    (by decide) (by decide) (by decide) (by decide)

end AboAmeer
